import Mathlib

/-!
Verification development for the hydromt_delwaq plugin.

The repository ships the DELWAQ model-builder plugin for the hydroMT
framework: notebooks and ini configurations describing the components
(setup_basemaps, setup_monitoring, setup_emission_raster,
setup_emission_vector, setup_hydrology_forcing) together with the
packaging metadata (pyproject.toml).  The Python implementation module
hydromt_delwaq/delwaq.py is not part of the shipped sources, so the
component behaviours are modelled here from the specification and from
the option documentation contained in the shipped notebooks and ini
files, while the packaging metadata is embedded directly.
-/

namespace HydromtDelwaq

/-! ### Forcing converter: volume offset -/

/-- Modelled from the spec: the setup_hydrology_forcing implementation
(hydromt_delwaq/delwaq.py) is missing from the shipped sources.  Per the
spec, when the add_volume_offset flag is set the volume series is shifted
by one timestep and the boundary timestep at the series start is filled by
repeating the first available sample.  The shifted series keeps the source
value of timestep i at position i+1, drops the final source value, and
repeats the first sample at position 0. -/
def offsetVolume : List ℚ → List ℚ
  | [] => []
  | x :: xs => x :: (x :: xs).dropLast

/-- Hydrological forcing data as read from the upstream model output:
one flux series and one volume series, one value per timestep. -/
structure HydroForcing where
  flux : List ℚ
  vol : List ℚ
deriving DecidableEq

/-- Modelled from the spec: the setup_hydrology_forcing component
(missing from the shipped sources) applies the one-timestep volume offset
to the volume series, and only to the volume series, exactly when the
add_volume_offset option is set. -/
def setup_hydrology_forcing (add_volume_offset : Bool) (f : HydroForcing) :
    HydroForcing :=
  if add_volume_offset then ⟨f.flux, offsetVolume f.vol⟩ else f

theorem offsetVolume_length (l : List ℚ) :
    (offsetVolume l).length = l.length := by
  cases l with
  | nil => rfl
  | cons x xs =>
    simp [offsetVolume, List.length_dropLast]

theorem offsetVolume_head? (l : List ℚ) :
    (offsetVolume l).head? = l.head? := by
  cases l with
  | nil => rfl
  | cons x xs => rfl

theorem offsetVolume_getElem? (l : List ℚ) (i : ℕ) (h : i + 1 < l.length) :
    (offsetVolume l)[i + 1]? = l[i]? := by
  cases l with
  | nil => simp at h
  | cons x xs =>
    have hx : offsetVolume (x :: xs) = x :: (x :: xs).dropLast := rfl
    rw [hx, List.getElem?_cons_succ, List.dropLast_eq_take,
      List.getElem?_take_of_lt]
    omega

/-- C1: with the volume-offset flag set, setup_hydrology_forcing leaves the
flux series untouched, shifts the volume series by exactly one timestep
(the source value of timestep i appears at timestep i+1), and fills the
first timestep by repeating the first available volume sample. -/
theorem setup_hydrology_forcing_offset_spec (f : HydroForcing) :
    (setup_hydrology_forcing true f).flux = f.flux ∧
    (setup_hydrology_forcing true f).vol.head? = f.vol.head? ∧
    ∀ i : ℕ, i + 1 < f.vol.length →
      (setup_hydrology_forcing true f).vol[i + 1]? = f.vol[i]? := by
  refine ⟨rfl, offsetVolume_head? f.vol, fun i h => ?_⟩
  exact offsetVolume_getElem? f.vol i h

theorem setup_hydrology_forcing_offset_spec_witness :
    (setup_hydrology_forcing true ⟨[1, 2, 3], [10, 20, 30]⟩).flux
        = [1, 2, 3] ∧
    (setup_hydrology_forcing true ⟨[1, 2, 3], [10, 20, 30]⟩).vol[0 + 1]?
        = ([10, 20, 30] : List ℚ)[0]? := by
  have h := setup_hydrology_forcing_offset_spec ⟨[1, 2, 3], [10, 20, 30]⟩
  exact ⟨h.1, h.2.2 0 (by decide)⟩

/-- C4: applying the forcing conversion, with or without the volume
offset, preserves the number of timesteps of both the volume and the flux
series: the record count is unchanged, only the alignment of volume values
to timesteps changes. -/
theorem setup_hydrology_forcing_length (add_volume_offset : Bool)
    (f : HydroForcing) :
    (setup_hydrology_forcing add_volume_offset f).vol.length = f.vol.length ∧
    (setup_hydrology_forcing add_volume_offset f).flux.length
        = f.flux.length := by
  cases add_volume_offset with
  | false => exact ⟨rfl, rfl⟩
  | true => exact ⟨offsetVolume_length f.vol, rfl⟩

/-! ### Forcing converter: unit conversion -/

/-- Modelled from the spec: the forcing converter's fixed unit table
(hydromt_delwaq/delwaq.py is missing from the shipped sources).  Each
accepted source unit maps to the pair of linear-transform coefficients
(a, b) converting a source value v to the target units as a * v + b.  The
notebook documentation names the conversions from mm and from m; the
listed coefficients are the fixed per-unit factors of that table. -/
def unitTable : List (String × ℚ × ℚ) :=
  [("mm", (1 / 1000, 0)), ("m", (1, 0))]

/-- Modelled from the spec: conversion of one value from a declared source
unit to the target units.  A unit found in the fixed table is converted by
the linear transform a * v + b; a unit not in the table fails with a
configuration error. -/
def convertUnit (u : String) (v : ℚ) : Except String ℚ :=
  match unitTable.lookup u with
  | some (a, b) => .ok (a * v + b)
  | none => .error ("unknown unit " ++ u)

/-- Modelled from the spec: conversion of a value between two units of the
fixed table, by converting from the source unit u to the target units and
then inverting the linear transform of the destination unit w. -/
def convertBetween (u w : String) (v : ℚ) : Except String ℚ :=
  match unitTable.lookup u, unitTable.lookup w with
  | some (a, b), some (c, d) => .ok ((a * v + b - d) / c)
  | _, _ => .error "unknown unit"

/-- Round trip through the unit table: convert from u to w, then convert
the result back from w to u. -/
def roundTripUnits (u w : String) (v : ℚ) : Except String ℚ :=
  match convertBetween u w v with
  | .ok x => convertBetween w u x
  | .error e => .error e

theorem unitTable_coeff_ne_zero (u : String) (a b : ℚ)
    (h : unitTable.lookup u = some (a, b)) : a ≠ 0 := by
  simp only [unitTable, List.lookup] at h
  rcases h1 : (u == "mm") with _ | _ <;> rw [h1] at h
  · rcases h2 : (u == "m") with _ | _ <;> rw [h2] at h
    · simp at h
    · simp only [Option.some.injEq, Prod.mk.injEq] at h
      rcases h with ⟨ha, _⟩
      rw [← ha]; norm_num
  · simp only [Option.some.injEq, Prod.mk.injEq] at h
    rcases h with ⟨ha, _⟩
    rw [← ha]; norm_num

/-- C2: every source unit present in the fixed unit table is converted by
the linear transform a * v + b with the table's coefficients, and every
unit absent from the table fails with a configuration error. -/
theorem convertUnit_spec :
    (∀ u a b v, unitTable.lookup u = some (a, b) →
      convertUnit u v = .ok (a * v + b)) ∧
    (∀ u v, unitTable.lookup u = none →
      convertUnit u v = .error ("unknown unit " ++ u)) := by
  constructor
  · intro u a b v h
    simp [convertUnit, h]
  · intro u v h
    simp [convertUnit, h]

theorem convertUnit_spec_witness :
    (unitTable.lookup "mm" = some (1 / 1000, 0) ∧
      convertUnit "mm" 2 = .ok (1 / 1000 * 2 + 0)) ∧
    (unitTable.lookup "kg" = none ∧
      convertUnit "kg" 2 = .error ("unknown unit " ++ "kg")) :=
  ⟨⟨by norm_num [unitTable, List.lookup],
      convertUnit_spec.1 "mm" (1 / 1000) 0 2
        (by norm_num [unitTable, List.lookup])⟩,
    ⟨by decide, convertUnit_spec.2 "kg" 2 (by decide)⟩⟩

/-- C7: for every pair of units present in the fixed unit table,
converting a value from the first to the second and then back yields the
original value exactly (hence within any floating-point tolerance). -/
theorem roundTripUnits_spec (u w : String) (v : ℚ)
    (hu : (unitTable.lookup u).isSome) (hw : (unitTable.lookup w).isSome) :
    roundTripUnits u w v = .ok v := by
  rcases Option.isSome_iff_exists.mp hu with ⟨⟨a, b⟩, ha⟩
  rcases Option.isSome_iff_exists.mp hw with ⟨⟨c, d⟩, hc⟩
  have hane : a ≠ 0 := unitTable_coeff_ne_zero u a b ha
  have hcne : c ≠ 0 := unitTable_coeff_ne_zero w c d hc
  simp only [roundTripUnits, convertBetween, ha, hc]
  congr 1
  field_simp

theorem roundTripUnits_spec_witness :
    (unitTable.lookup "mm").isSome = true ∧
    (unitTable.lookup "m").isSome = true ∧
    roundTripUnits "mm" "m" 5 = .ok 5 :=
  ⟨by decide, by decide,
    roundTripUnits_spec "mm" "m" 5 (by decide) (by decide)⟩

/-! ### Grid/segment builder -/

/-- Modelled from the spec: the setup_basemaps segment numbering
(hydromt_delwaq/delwaq.py is missing from the shipped sources).  Walking
the flattened active-cell mask of the upstream model in scan order, each
active cell receives the next segment ID starting from n + 1 and each
inactive cell receives 0 (NoData). -/
def assignSegments : List Bool → ℕ → List ℕ
  | [], _ => []
  | b :: bs, n =>
    if b then (n + 1) :: assignSegments bs (n + 1)
    else 0 :: assignSegments bs n

/-- Segment grid built from the upstream model's active-cell mask, with
IDs starting at 1. -/
def buildSegmentIds (mask : List Bool) : List ℕ :=
  assignSegments mask 0

/-- The segment IDs sitting on active cells, in scan order. -/
def activeIds (mask : List Bool) (ids : List ℕ) : List ℕ :=
  ((mask.zip ids).filter (fun p => p.1)).map (fun p => p.2)

theorem assignSegments_length (mask : List Bool) :
    ∀ n : ℕ, (assignSegments mask n).length = mask.length := by
  induction mask with
  | nil => intro n; rfl
  | cons b bs ih =>
    intro n
    cases b <;> simp [assignSegments, ih]

theorem activeIds_assignSegments (mask : List Bool) :
    ∀ n : ℕ, activeIds mask (assignSegments mask n)
      = List.range' (n + 1) (mask.count true) := by
  induction mask with
  | nil => intro n; rfl
  | cons b bs ih =>
    intro n
    cases b with
    | true =>
      have h : activeIds (true :: bs) (assignSegments (true :: bs) n)
          = (n + 1) :: activeIds bs (assignSegments bs (n + 1)) := rfl
      rw [h, ih (n + 1)]
      have h3 : (true :: bs).count true = bs.count true + 1 := by
        simp [List.count_cons]
      rw [h3, List.range'_succ]
    | false =>
      have h : activeIds (false :: bs) (assignSegments (false :: bs) n)
          = activeIds bs (assignSegments bs n) := rfl
      have h3 : (false :: bs).count true = bs.count true := by
        simp [List.count_cons]
      rw [h, ih n, h3]

theorem assignSegments_inactive (mask : List Bool) :
    ∀ (n i : ℕ), mask[i]? = some false →
      (assignSegments mask n)[i]? = some 0 := by
  induction mask with
  | nil => intro n i h; simp at h
  | cons b bs ih =>
    intro n i h
    cases i with
    | zero =>
      simp only [List.getElem?_cons_zero, Option.some.injEq] at h
      subst h
      simp [assignSegments]
    | succ j =>
      have h2 : bs[j]? = some false := by
        simpa using h
      cases b with
      | true =>
        have hx : assignSegments (true :: bs) n
            = (n + 1) :: assignSegments bs (n + 1) := rfl
        rw [hx, List.getElem?_cons_succ]
        exact ih (n + 1) j h2
      | false =>
        have hx : assignSegments (false :: bs) n
            = 0 :: assignSegments bs n := rfl
        rw [hx, List.getElem?_cons_succ]
        exact ih n j h2

/-- Model instance state accumulated by the setup components: the segment
grid, the named static emission fields, the monitoring sets and the
hydrological forcing. -/
structure DelwaqState where
  segments : List ℕ
  staticFields : List (String × List ℚ)
  monitoring : List (String × List ℕ)
  forcing : HydroForcing

/-- Modelled from the spec: the setup operations a build or update
invocation may run after the segment grid exists, each carrying the data
it writes. -/
inductive SetupOp where
  | emissionRaster : String → List ℚ → SetupOp
  | emissionVector : String → List ℚ → SetupOp
  | emissionMapping : String → List ℚ → SetupOp
  | monitoringSet : String → List ℕ → SetupOp
  | hydrologyForcing : Bool → HydroForcing → SetupOp

/-- Modelled from the spec: each setup component writes only its own part
of the model state (static fields, monitoring sets or forcing); only a
build or rebuild of the base maps regenerates the segment grid. -/
def applySetup (m : DelwaqState) : SetupOp → DelwaqState
  | .emissionRaster nm field =>
      ⟨m.segments, (nm, field) :: m.staticFields, m.monitoring, m.forcing⟩
  | .emissionVector nm field =>
      ⟨m.segments, (nm, field) :: m.staticFields, m.monitoring, m.forcing⟩
  | .emissionMapping nm field =>
      ⟨m.segments, (nm, field) :: m.staticFields, m.monitoring, m.forcing⟩
  | .monitoringSet nm ids =>
      ⟨m.segments, m.staticFields, (nm, ids) :: m.monitoring, m.forcing⟩
  | .hydrologyForcing b f =>
      ⟨m.segments, m.staticFields, m.monitoring,
        setup_hydrology_forcing b f⟩

/-- Fresh model state right after the segment grid is built from the
upstream model's active-cell mask. -/
def buildModel (mask : List Bool) : DelwaqState :=
  ⟨buildSegmentIds mask, [], [], ⟨[], []⟩⟩

/-- Run a sequence of setup operations on a model state. -/
def applySetups (m : DelwaqState) (ops : List SetupOp) : DelwaqState :=
  ops.foldl applySetup m

theorem applySetups_segments (ops : List SetupOp) :
    ∀ m : DelwaqState, (applySetups m ops).segments = m.segments := by
  induction ops with
  | nil => intro m; rfl
  | cons op ops ih =>
    intro m
    have h : applySetups m (op :: ops)
        = applySetups (applySetup m op) ops := rfl
    rw [h, ih]
    cases op <;> rfl

/-- C3: after the segment grid is built from the upstream model's
active-cell mask, and after any sequence of subsequent setup operations,
the segment IDs on active cells are exactly the contiguous positive
integers 1..N in order, where N is the upstream active-cell count, every
inactive cell holds 0 (NoData), and the grid matches the mask cell for
cell. -/
theorem segment_grid_invariant (mask : List Bool) (ops : List SetupOp) :
    (applySetups (buildModel mask) ops).segments = buildSegmentIds mask ∧
    activeIds mask (applySetups (buildModel mask) ops).segments
      = List.range' 1 (mask.count true) ∧
    (∀ i : ℕ, mask[i]? = some false →
      (applySetups (buildModel mask) ops).segments[i]? = some 0) ∧
    (applySetups (buildModel mask) ops).segments.length = mask.length := by
  have hseg : (applySetups (buildModel mask) ops).segments
      = buildSegmentIds mask :=
    applySetups_segments ops (buildModel mask)
  refine ⟨hseg, ?_, ?_, ?_⟩
  · rw [hseg]
    exact activeIds_assignSegments mask 0
  · intro i h
    rw [hseg]
    exact assignSegments_inactive mask 0 i h
  · rw [hseg]
    exact assignSegments_length mask 0

theorem segment_grid_invariant_witness :
    activeIds [true, false, true]
        (applySetups (buildModel [true, false, true])
          [SetupOp.emissionRaster "ghs_pop_2015" [3, 4]]).segments
      = List.range' 1 ([true, false, true].count true) ∧
    (applySetups (buildModel [true, false, true])
        [SetupOp.emissionRaster "ghs_pop_2015" [3, 4]]).segments[1]?
      = some 0 :=
  ⟨(segment_grid_invariant [true, false, true]
      [SetupOp.emissionRaster "ghs_pop_2015" [3, 4]]).2.1,
    (segment_grid_invariant [true, false, true]
      [SetupOp.emissionRaster "ghs_pop_2015" [3, 4]]).2.2.1 1 (by decide)⟩

/-! ### Emission field preparer -/

/-- Resampling methods documented for setup_emission_raster in
adding_global_emission.ipynb and used in delwaq_build_EM.ini: nearest,
average and mode (for classification). -/
def scale_methods : List String :=
  ["nearest", "average", "mode"]

/-- Rasterization methods for setup_emission_vector: value (used in
delwaq_build_EM.ini) and fraction. -/
def rasterize_methods : List String :=
  ["value", "fraction"]

/-- Fill methods documented for setup_emission_raster in
adding_global_emission.ipynb: nearest, zero, or value to fill with a user
defined value. -/
def fillna_methods : List String :=
  ["nearest", "zero", "value"]

/-- Mean of a list of values, none when the list is empty. -/
def averageOf (l : List ℚ) : Option ℚ :=
  if l.isEmpty then none else some (l.sum / l.length)

/-- Most frequent value of a list, none when the list is empty. -/
def modeOf (l : List ℚ) : Option ℚ :=
  l.foldl
    (fun best x =>
      match best with
      | none => some x
      | some b => if l.count b < l.count x then some x else some b)
    none

/-- Symmetric distance between two cell indices. -/
def natDist (i j : ℕ) : ℕ :=
  (i - j) + (j - i)

/-- Value of the non-missing cell nearest to index i, none when every
cell is missing. -/
def nearestAt (g : List (Option ℚ)) (i : ℕ) : Option ℚ :=
  let cands := (List.range g.length).filterMap
    (fun j => (g[j]?.getD none).map (fun v => (j, v)))
  (cands.foldl
    (fun best c =>
      match best with
      | none => some c
      | some b => if natDist i c.1 < natDist i b.1 then some c else some b)
    none).map (fun c => c.2)

/-- Modelled from the spec: resampling of a raster source onto the
segment grid (the setup_emission_raster implementation in
hydromt_delwaq/delwaq.py is missing from the shipped sources).  Each
target cell lists the indices of the source cells covering it; nearest
picks the first covering value, average their mean and mode their most
frequent value.  A method outside the supported set fails with a
configuration error, as documented in adding_global_emission.ipynb. -/
def resample (method : String) (src : List ℚ) (mapping : List (List ℕ)) :
    Except String (List (Option ℚ)) :=
  if method = "nearest" then
    .ok (mapping.map (fun js => js.head? >>= fun j => src[j]?))
  else if method = "average" then
    .ok (mapping.map (fun js => averageOf (js.filterMap (fun j => src[j]?))))
  else if method = "mode" then
    .ok (mapping.map (fun js => modeOf (js.filterMap (fun j => src[j]?))))
  else
    .error ("unknown scale_method " ++ method)

/-- Modelled from the spec and from the option documentation in
adding_global_emission.ipynb: filling of missing cells after resampling.
The method nearest copies the nearest non-missing value, zero fills with
0, and value fills with the user defined constant c; any other method
name fails with a configuration error. -/
def fillMissing (method : String) (c : ℚ) (g : List (Option ℚ)) :
    Except String (List ℚ) :=
  if method = "nearest" then
    .ok ((List.range g.length).map (fun i => (nearestAt g i).getD 0))
  else if method = "zero" then
    .ok (g.map (fun o => o.getD 0))
  else if method = "value" then
    .ok (g.map (fun o => o.getD c))
  else
    .error ("unknown fillna_method " ++ method)

/-- Modelled from the spec: the setup_emission_raster component resamples
the source onto the segment grid, then fills missing cells; an error in
either stage aborts the step with no output. -/
def setup_emission_raster (scale_method fillna_method : String)
    (fillna_value : ℚ) (src : List ℚ) (mapping : List (List ℕ)) :
    Except String (List ℚ) := do
  let r ← resample scale_method src mapping
  fillMissing fillna_method fillna_value r

/-- Modelled from the spec: the setup_emission_vector component
rasterizes a vector source onto the segment grid, writing per-cell source
values for the value method and per-cell coverage fractions for the
fraction method; a method outside the supported set fails with a
configuration error. -/
def setup_emission_vector (rasterize_method : String)
    (vals fracs : List ℚ) : Except String (List ℚ) :=
  if rasterize_method = "value" then .ok vals
  else if rasterize_method = "fraction" then .ok fracs
  else .error ("unknown rasterize_method " ++ rasterize_method)

/-- C5 counterexample: the fill method set does not contain a method
named constant; the user-defined-constant fill is named value. -/
theorem fillMissing_constant_name_counterexample :
    fillMissing "constant" 5 [none] = .error "unknown fillna_method constant" ∧
    fillMissing "value" 5 [none] = .ok [5] ∧
    "value" ∉ (["nearest", "zero", "constant"] : List String) := by
  refine ⟨?_, ?_, by decide⟩ <;> rfl

/-- C5 (amended): the emission field preparer fills missing cells using
exactly one of the three fill methods named nearest, zero and value, where
the method named value fills every missing cell with the user defined
constant; no other fill method name is accepted. -/
theorem fillMissing_spec :
    (∀ m c g, (∃ out, fillMissing m c g = .ok out) ↔ m ∈ fillna_methods) ∧
    (∀ c g, fillMissing "value" c g = .ok (g.map (fun o => o.getD c))) := by
  constructor
  · intro m c g
    constructor
    · intro hout
      rcases hout with ⟨out, hout⟩
      by_contra hmem
      simp only [fillna_methods, List.mem_cons, List.not_mem_nil, or_false,
        not_or] at hmem
      rcases hmem with ⟨h1, h2, h3⟩
      simp only [fillMissing, if_neg h1, if_neg h2, if_neg h3] at hout
      exact Except.noConfusion hout
    · intro hmem
      simp only [fillna_methods, List.mem_cons, List.not_mem_nil,
        or_false] at hmem
      rcases hmem with h | h | h <;> subst h <;>
        simp [fillMissing]
  · intro c g
    rfl

theorem fillMissing_spec_witness :
    (∃ out, fillMissing "zero" 0 [none, some 3] = .ok out) ∧
    fillMissing "value" 7 [none, some 3]
      = .ok (([none, some 3] : List (Option ℚ)).map (fun o => o.getD 7)) :=
  ⟨(fillMissing_spec.1 "zero" 0 [none, some 3]).mpr (by decide),
    fillMissing_spec.2 7 [none, some 3]⟩

/-- C6: invoking the emission field preparer with a resampling or
rasterization method outside the supported sets (nearest, average, mode
for rasters; value, fraction for vectors) yields a configuration error
immediately and the step produces no output. -/
theorem emission_unknown_method_errors :
    (∀ m, m ∉ scale_methods → ∀ fm c src mapping,
      setup_emission_raster m fm c src mapping
        = .error ("unknown scale_method " ++ m)) ∧
    (∀ m, m ∉ rasterize_methods → ∀ vals fracs,
      setup_emission_vector m vals fracs
        = .error ("unknown rasterize_method " ++ m)) := by
  constructor
  · intro m hm fm c src mapping
    simp only [scale_methods, List.mem_cons, List.not_mem_nil, or_false,
      not_or] at hm
    rcases hm with ⟨h1, h2, h3⟩
    simp only [setup_emission_raster, resample, if_neg h1, if_neg h2,
      if_neg h3]
    rfl
  · intro m hm vals fracs
    simp only [rasterize_methods, List.mem_cons, List.not_mem_nil, or_false,
      not_or] at hm
    rcases hm with ⟨h1, h2⟩
    simp [setup_emission_vector, if_neg h1, if_neg h2]

theorem emission_unknown_method_errors_witness :
    setup_emission_raster "cubic" "zero" 0 [1, 2] [[0], [1]]
      = .error ("unknown scale_method " ++ "cubic") ∧
    setup_emission_vector "area" [1] [2]
      = .error ("unknown rasterize_method " ++ "area") :=
  ⟨emission_unknown_method_errors.1 "cubic" (by decide) "zero" 0 [1, 2]
      [[0], [1]],
    emission_unknown_method_errors.2 "area" (by decide) [1] [2]⟩

/-! ### Monitoring set builder -/

/-- Modelled from the spec: the setup_monitoring component (missing from
the shipped sources) maps each monitoring point to the enclosing or
nearest segment ID through the mapping toSeg derived from the segment
grid, and rejects any input whose entries map to duplicate segment IDs
within one set. -/
def setup_monitoring {α : Type} (toSeg : α → ℕ) (pts : List α) :
    Except String (List ℕ) :=
  let ids := pts.map toSeg
  if ids.Nodup then .ok ids
  else .error "duplicate monitoring segment IDs"

/-- C8: every monitoring set the builder produces has pairwise distinct
segment IDs, and any input whose entries map to a duplicate segment ID
within one set is rejected with an error. -/
theorem setup_monitoring_spec :
    (∀ (α : Type) (toSeg : α → ℕ) (pts : List α) (ids : List ℕ),
      setup_monitoring toSeg pts = .ok ids → ids.Nodup) ∧
    (∀ (α : Type) (toSeg : α → ℕ) (pts : List α),
      ¬ (pts.map toSeg).Nodup →
        setup_monitoring toSeg pts
          = .error "duplicate monitoring segment IDs") := by
  constructor
  · intro α toSeg pts ids h
    unfold setup_monitoring at h
    by_cases hd : (pts.map toSeg).Nodup
    · rw [if_pos hd] at h
      cases h
      exact hd
    · rw [if_neg hd] at h
      exact Except.noConfusion h
  · intro α toSeg pts hd
    unfold setup_monitoring
    rw [if_neg hd]

theorem setup_monitoring_spec_witness :
    (¬ (([5, 5] : List ℕ).map id).Nodup ∧
      setup_monitoring id [5, 5]
        = .error "duplicate monitoring segment IDs") ∧
    (setup_monitoring id [5, 7] = .ok [5, 7] ∧
      ([5, 7] : List ℕ).Nodup) :=
  ⟨⟨by decide, setup_monitoring_spec.2 ℕ id [5, 5] (by decide)⟩,
    ⟨by rfl, setup_monitoring_spec.1 ℕ id [5, 7] [5, 7] (by rfl)⟩⟩

/-! ### Packaging metadata -/

/-- Entry point record of a Python distribution: entry-point group,
entry-point name and the object reference it resolves to. -/
structure EntryPoint where
  group : String
  epName : String
  target : String
deriving DecidableEq

/-- Entry points declared in pyproject.toml: the single
[project.entry-points."hydromt.models"] table with its single key. -/
def pyprojectEntryPoints : List EntryPoint :=
  [⟨"hydromt.models", "delwaq", "hydromt_delwaq.delwaq:DelwaqModel"⟩]

/-- C9: the package declares exactly one plugin entry point in the group
hydromt.models, named delwaq and resolving to
hydromt_delwaq.delwaq:DelwaqModel. -/
theorem pyproject_entry_point_unique :
    pyprojectEntryPoints.filter (fun e => e.group == "hydromt.models")
      = [⟨"hydromt.models", "delwaq", "hydromt_delwaq.delwaq:DelwaqModel"⟩] ∧
    (pyprojectEntryPoints.filter
      (fun e => e.group == "hydromt.models")).length = 1 ∧
    pyprojectEntryPoints.length = 1 :=
  ⟨rfl, rfl, rfl⟩

/-! ### Global configuration: model type -/

/-- Model types documented in the shipped configurations
(delwaq_build_EM.ini and the sediment update ini both carry the comment
listing EM and WQ as the type of Delwaq model): EM for D-Emissions and WQ
for D-Water Quality. -/
def mtype_values : List String :=
  ["EM", "WQ"]

/-- Global section of a hydroMT delwaq configuration: the model type and
the optional extra data libraries. -/
structure GlobalConfig where
  mtype : String
  data_libs : List String

/-- Global section of delwaq_build_EM.ini. -/
def delwaq_build_EM_global : GlobalConfig :=
  ⟨"EM", []⟩

/-- Global section of the shipped sediment update ini. -/
def delwaq_update_sediment_global : GlobalConfig :=
  ⟨"WQ", ["../../examples/examples_data/data_sediment.yml",
    "../../examples/local_sources.yml"]⟩

/-- Modelled from the spec: validation of the global mtype option
(hydromt_delwaq/delwaq.py is missing from the shipped sources); a build
or update invocation accepts exactly the documented model types. -/
def checkMtype (cfg : GlobalConfig) : Except String Unit :=
  if cfg.mtype ∈ mtype_values then .ok ()
  else .error ("unknown mtype " ++ cfg.mtype)

/-- C10: the global mtype option accepts exactly the two values EM and
WQ, and the two model configurations shipped with the repository use one
of them each. -/
theorem checkMtype_spec :
    (∀ cfg : GlobalConfig,
      checkMtype cfg = .ok () ↔ (cfg.mtype = "EM" ∨ cfg.mtype = "WQ")) ∧
    checkMtype delwaq_build_EM_global = .ok () ∧
    checkMtype delwaq_update_sediment_global = .ok () := by
  refine ⟨fun cfg => ?_, rfl, rfl⟩
  constructor
  · intro h
    by_cases hm : cfg.mtype ∈ mtype_values
    · simpa [mtype_values, List.mem_cons] using hm
    · rw [checkMtype, if_neg hm] at h
      exact Except.noConfusion h
  · intro h
    have hm : cfg.mtype ∈ mtype_values := by
      simp only [mtype_values, List.mem_cons, List.not_mem_nil, or_false]
      exact h
    rw [checkMtype, if_pos hm]

theorem checkMtype_spec_witness :
    checkMtype ⟨"WQ", []⟩ = .ok () ∧
    (GlobalConfig.mk "WQ" []).mtype = "WQ" :=
  ⟨(checkMtype_spec.1 ⟨"WQ", []⟩).mpr (Or.inr rfl), rfl⟩

end HydromtDelwaq
